import Mathlib

/-!
Verification of the device-availability collection pipeline
(`Switch_Availability.py` and `Switch_Availability_asyncio.py`).

The two scripts fetch per-device availability percentages from a monitoring
API (four duration windows: day, week, month, year), drive the fetch over a
device list (sequentially through a process pool of size 1, respectively via
cooperative async gathering), and average the per-device results into four
network-wide means.

Shallow embedding conventions:
* A monitoring-API interaction for one device is summarised by `FetchResult`:
  either a well-formed response body (`ok`), or `failure`, covering a network
  error, a non-success HTTP status, or a malformed body — all of which raise
  an exception inside the Python fetch.
* A raised Python exception is modelled with `Except Unit`; its `error` case
  carries no payload because the scripts never catch exceptions.
* `None` returned by `get_availability` (the "device absent" outcome) is
  `Option.none`.
* Percentage strings such as "99.999000" denote exact decimal values and are
  carried as rationals; the separate dyadic-representability development below
  examines what the Python `float` conversion can and cannot carry exactly.
-/

namespace SwitchAvailability

/-- One entry of the monitoring API response list: `{"availability_perc":
<string-decimal>, "duration": <int>}`. The percentage is the exact decimal
value denoted by the string. -/
structure Entry where
  duration : Nat
  availability_perc : Rat
deriving DecidableEq

/-- A well-formed monitoring API response body: `{"availability": [...]}`. -/
structure ApiResponse where
  availability : List Entry
deriving DecidableEq

/-- Outcome of the HTTP interaction for one device. `failure` covers a
network/transport error, a non-success HTTP status, and a malformed body:
each raises an exception inside the Python fetch before the empty-list check
is reached. -/
inductive FetchResult where
  | ok (resp : ApiResponse)
  | failure
deriving DecidableEq

/-- A device descriptor as used by the scripts (a NetBox device object;
identity is the address, the scripts read `name` and the primary IP). -/
structure Device where
  name : String
  address : String
deriving DecidableEq

/-- The per-device availability dictionary built by `get_availability`:
`{'Name': device.name, 86400: '100.000000', ...}`. The `'Name'` entry is the
`name` field; the integer-keyed entries are the `samples` association list,
in response order (a Python dict comprehension lets a later duplicate key
overwrite an earlier one, which `pyDictGet` reproduces). -/
structure Avail where
  name : String
  samples : List (Nat × Rat)
deriving DecidableEq

/-- Python dict lookup for a dict built by inserting the bindings of `l` in
order: the *last* binding of a key wins; `none` models a raised `KeyError`. -/
def pyDictGet (l : List (Nat × Rat)) (k : Nat) : Option Rat :=
  l.reverse.lookup k

/-- The diagnostic printed by `get_availability` when the availability list
is empty: `f"[red]{device.name} issue in LibreNMS"` (colour markup aside,
it names the device). -/
def warnMsg (device : Device) : String :=
  device.name ++ " issue in LibreNMS"

/-- `get_availability` (both scripts behave identically): on a raised
transport/parse failure the exception propagates; on a well-formed response
with an empty `availability` list it prints a warning naming the device and
returns `None`; otherwise it returns the availability dictionary keying each
response entry by its `duration` value. The returned pair carries the list
of warnings printed during the call. -/
def get_availability (device : Device) :
    FetchResult → Except Unit (Option Avail × List String)
  | .failure => .error ()
  | .ok resp =>
    if resp.availability.length = 0 then
      .ok (none, [warnMsg device])
    else
      .ok (some { name := device.name,
                  samples := resp.availability.map
                    (fun a => (a.duration, a.availability_perc)) }, [])

/-- Final state of a `multi_proc` call: either the loop consumed every
device (`completed`), or an exception raised by some device's fetch
propagated out of `pool.imap` and aborted the loop (`aborted`). Both carry
the results appended so far (in device order, `None` entries included) and
the number of progress ticks issued so far. -/
inductive RunOutcome where
  | completed (results : List (Option Avail)) (ticks : Nat)
  | aborted (results : List (Option Avail)) (ticks : Nat)
deriving DecidableEq

/-- `multi_proc` of the sequential script, viewed functionally: with
`max_processes = 1`, `pool.imap` yields the per-device outcomes in order;
each consumed outcome (including `None`) is appended to the results list and
then the progress bar advances by one. An exception raised by a device's
fetch re-raises at the consuming loop, aborting the remaining devices.
`env` gives each device's HTTP interaction outcome; `acc`/`t` are the
results accumulated and ticks issued before the remaining `devices`. -/
def multi_proc (env : Device → FetchResult) :
    List Device → List (Option Avail) → Nat → RunOutcome
  | [], acc, t => .completed acc t
  | d :: ds, acc, t =>
    match get_availability d (env d) with
    | .error _ => .aborted acc t
    | .ok (r, _) => multi_proc env ds (acc ++ [r]) (t + 1)

/-- The list of per-device outcomes produced by `asyncio.gather` in
`multi_async`: all fetch coroutines run; if any raises, the exception
propagates out of `gather` (so no results list is produced), otherwise the
outcomes appear in device order, `None` entries included. -/
def fetchAll (env : Device → FetchResult) :
    List Device → Except Unit (List (Option Avail))
  | [] => .ok []
  | d :: ds =>
    match get_availability d (env d), fetchAll env ds with
    | .error _, _ => .error ()
    | .ok _, .error _ => .error ()
    | .ok (r, _), .ok rs => .ok (r :: rs)

/-- `multi_async` of the asyncio script: gathers all fetches, then walks the
gathered results and advances the progress bar once per result that `is not
None` (absent devices produce no tick). Returns the full results list
(`None` entries included) together with the number of ticks issued. -/
def multi_async (env : Device → FetchResult) (devices : List Device) :
    Except Unit (List (Option Avail) × Nat) :=
  match fetchAll env devices with
  | .error e => .error e
  | .ok results =>
    .ok (results, (results.filter (fun r => r.isSome)).length)

/-- The exceptions `average_availability` can raise: a `KeyError` on a
duration key missing from some device dictionary, or a `ZeroDivisionError`
from `sum(xs) / len(xs)` on an empty window list. -/
inductive AggError where
  | keyError (duration : Nat)
  | zeroDivision
deriving DecidableEq

/-- One list comprehension of `average_availability`:
`[float(result[d]) for result in results if result is not None]`.
`None` entries are skipped by the `if` guard; a non-`None` dictionary lacking
key `d` raises `KeyError` at that point (the comprehension runs left to
right, so the first missing key raises). -/
def collectWindow (d : Nat) : List (Option Avail) → Except AggError (List Rat)
  | [] => .ok []
  | none :: rest => collectWindow d rest
  | some a :: rest =>
    match pyDictGet a.samples d with
    | none => .error (.keyError d)
    | some v =>
      match collectWindow d rest with
      | .error e => .error e
      | .ok vs => .ok (v :: vs)

/-- `sum(xs) / len(xs)`: raises `ZeroDivisionError` on an empty list. -/
def listMean (l : List Rat) : Except AggError Rat :=
  if l.length = 0 then .error .zeroDivision
  else .ok (l.sum / (l.length : Rat))

/-- The dictionary returned by `average_availability`. -/
structure Report where
  day : Rat
  week : Rat
  month : Rat
  year : Rat
deriving DecidableEq

/-- `average_availability` (identical in both scripts): builds the four
window lists in source order (day, week, month, year), then computes the
four means in the same order. The first raised exception propagates. -/
def average_availability (results : List (Option Avail)) :
    Except AggError Report :=
  match collectWindow 86400 results with
  | .error e => .error e
  | .ok day =>
    match collectWindow 604800 results with
    | .error e => .error e
    | .ok week =>
      match collectWindow 2592000 results with
      | .error e => .error e
      | .ok month =>
        match collectWindow 31536000 results with
        | .error e => .error e
        | .ok year =>
          match listMean day with
          | .error e => .error e
          | .ok aDay =>
            match listMean week with
            | .error e => .error e
            | .ok aWeek =>
              match listMean month with
              | .error e => .error e
              | .ok aMonth =>
                match listMean year with
                | .error e => .error e
                | .ok aYear => .ok ⟨aDay, aWeek, aMonth, aYear⟩

/-- Visible end state of one whole run: the printed report, or the
exception that killed the process, classified by the phase that raised it. -/
inductive MainResult where
  | report (r : Report)
  | aggCrash (e : AggError)
  | fetchCrash
  | inventoryCrash
deriving DecidableEq

/-- The aggregation-and-print tail shared by both mains. -/
def aggOutcome (results : List (Option Avail)) : MainResult :=
  match average_availability results with
  | .error e => .aggCrash e
  | .ok r => .report r

/-- The `__main__` block of the sequential script: query the inventory
(`inventory` is the outcome of `get_list_of_devices`; an exception there
kills the run), initialise the global results list, run `multi_proc`, then
aggregate and print. An exception escaping `multi_proc` kills the run. -/
def main_seq (inventory : Except Unit (List Device))
    (env : Device → FetchResult) : MainResult :=
  match inventory with
  | .error _ => .inventoryCrash
  | .ok devices =>
    match multi_proc env devices [] 0 with
    | .aborted _ _ => .fetchCrash
    | .completed results _ => aggOutcome results

/-- `main` of the asyncio script: query the inventory, run `multi_async`
(an exception out of `gather` kills the run), then aggregate and print. -/
def main_async (inventory : Except Unit (List Device))
    (env : Device → FetchResult) : MainResult :=
  match inventory with
  | .error _ => .inventoryCrash
  | .ok devices =>
    match multi_async env devices with
    | .error _ => .fetchCrash
    | .ok (results, _) => aggOutcome results

/-- The Python global name environment visible to the sequential script's
`multi_proc`: the module-level `results` list, which is bound only by the
`__main__` block (`none` models the name not being defined). -/
structure Globals where
  results : Option (List (Option Avail))
deriving DecidableEq

/-- Outcome of a `multi_proc` call with the global-name mechanics kept
explicit: `returned` is the normal fall-through (the function body has no
`return`, so the call returns `None`); `nameError` is the `NameError`
raised by `results.append(...)` when no global `results` list is defined;
`raised` is a fetch exception propagating out of `pool.imap`. Each carries
the final global state and the progress ticks issued. -/
inductive ProcOutcome where
  | returned (g : Globals) (ticks : Nat)
  | nameError (g : Globals) (ticks : Nat)
  | raised (g : Globals) (ticks : Nat)
deriving DecidableEq

/-- `multi_proc` with the module-level `results` list modelled explicitly:
for each consumed device outcome the loop body evaluates
`results.append(result)` — raising `NameError` if the global is undefined,
otherwise appending (`None` included) — and then advances the progress
bar. With an empty device list the loop body never runs, so the global is
never referenced. -/
def multi_proc_global (env : Device → FetchResult) :
    List Device → Globals → Nat → ProcOutcome
  | [], g, t => .returned g t
  | d :: ds, g, t =>
    match get_availability d (env d) with
    | .error _ => .raised g t
    | .ok (r, _) =>
      match g.results with
      | none => .nameError g t
      | some l => multi_proc_global env ds ⟨some (l ++ [r])⟩ (t + 1)

/-- The four standard duration windows (seconds): day, week, month, year. -/
def standardDurations : List Nat := [86400, 604800, 2592000, 31536000]

/-- `true` iff every non-`None` dictionary in `results` contains key `d` —
exactly the condition under which the window comprehension for `d` runs to
completion instead of raising `KeyError`. -/
def hasKeyAll (results : List (Option Avail)) (d : Nat) : Bool :=
  results.all (fun r =>
    match r with
    | none => true
    | some a => (pyDictGet a.samples d).isSome)

/-- The spec's description of a window's contributing values: "collect the
percentage value from every record that contains that duration key"
(records lacking the key contribute nothing). -/
def windowValues (results : List (Option Avail)) (d : Nat) : List Rat :=
  results.filterMap (fun r => r.bind (fun a => pyDictGet a.samples d))

/-- The per-device outcome `pool.imap` / `asyncio.gather` yields for a
device whose fetch does not raise: `None` for an empty availability list,
otherwise the availability dictionary. (Unused when the fetch raises.) -/
def fetchOutcome (env : Device → FetchResult) (d : Device) : Option Avail :=
  match get_availability d (env d) with
  | .error _ => none
  | .ok (r, _) => r

/-- `float` in the scripts converts the percentage string to an IEEE-754
binary64 value. Every binary64 value equals `m / 2 ^ k` for some integer
`m` and natural `k`, so a decimal string can be carried exactly by the
conversion only if its exact value is dyadic in this sense. -/
def dyadicRepresentable (q : Rat) : Prop :=
  ∃ (m : Int) (k : Nat), q = (m : Rat) / 2 ^ k

/-- The exact decimal value of the percentage string "99.999000" appearing
in the sample response documented inside `get_availability`. -/
def samplePercValue : Rat := 99999 / 1000

/-! Concrete fixtures used by witnesses and counterexamples. -/

/-- Fixture device. -/
def dA : Device := ⟨"A", "10.0.0.1"⟩

/-- Fixture device. -/
def dB : Device := ⟨"B", "10.0.0.2"⟩

/-- A response carrying the same percentage for all four windows. -/
def respFull (q : Rat) : ApiResponse :=
  ⟨[⟨86400, q⟩, ⟨604800, q⟩, ⟨2592000, q⟩, ⟨31536000, q⟩]⟩

/-- Environment in which every device answers with an empty availability
list (the "absent" outcome). -/
def envAbsent : Device → FetchResult := fun _ => .ok ⟨[]⟩

/-- Environment in which device "A" suffers a transport failure and every
other device answers fully. -/
def envFailA : Device → FetchResult :=
  fun d => if d.name = "A" then .failure else .ok (respFull 100)

/-- Fixture dictionary with all four windows present. -/
def recA : Avail :=
  ⟨"A", [(86400, 100), (604800, 100), (2592000, 100), (31536000, 100)]⟩

/-- Fixture dictionary with all four windows present. -/
def recB : Avail :=
  ⟨"B", [(86400, 99), (604800, 99), (2592000, 99), (31536000, 99)]⟩

/-- Fixture dictionary containing only the week window. -/
def recWeekOnly : Avail := ⟨"B", [(604800, 50)]⟩

/-! Helper lemmas. -/

/-- One window comprehension, characterised: it succeeds with exactly the
values of the records containing the key when every non-`None` record
contains the key, and raises `KeyError` otherwise. -/
theorem collectWindow_eq (d : Nat) (results : List (Option Avail)) :
    collectWindow d results =
      if hasKeyAll results d then .ok (windowValues results d)
      else .error (.keyError d) := by
  induction results with
  | nil => rfl
  | cons r rest ih =>
    cases r with
    | none =>
      simpa [collectWindow, hasKeyAll, windowValues] using ih
    | some a =>
      have hh : hasKeyAll (some a :: rest) d =
          ((pyDictGet a.samples d).isSome && hasKeyAll rest d) := rfl
      have hw : windowValues (some a :: rest) d =
          (match pyDictGet a.samples d with
           | none => windowValues rest d
           | some v => v :: windowValues rest d) := by
        cases h2 : pyDictGet a.samples d <;>
          simp [windowValues, List.filterMap_cons, h2]
      cases hk : pyDictGet a.samples d with
      | none =>
        simp only [collectWindow, hk, hh, hw]
        simp
      | some v =>
        simp only [collectWindow, hk, ih, hh, hw]
        cases hkr : hasKeyAll rest d <;> simp [hkr]

/-- `sum(xs) / len(xs)` depends only on the multiset of values. -/
theorem listMean_perm {l1 l2 : List Rat} (h : l1.Perm l2) :
    listMean l1 = listMean l2 := by
  unfold listMean
  rw [h.length_eq, h.sum_eq]

/-- Key-completeness of a window is a property of the member set. -/
theorem hasKeyAll_perm {results results2 : List (Option Avail)} (d : Nat)
    (h : results.Perm results2) :
    hasKeyAll results d = hasKeyAll results2 d := by
  cases h2 : hasKeyAll results2 d with
  | true =>
    rw [hasKeyAll, List.all_eq_true] at h2 ⊢
    intro r hr
    exact h2 r (h.mem_iff.mp hr)
  | false =>
    cases h1 : hasKeyAll results d with
    | false => rfl
    | true =>
      rw [hasKeyAll, List.all_eq_true] at h1
      have h3 : hasKeyAll results2 d = true := by
        rw [hasKeyAll, List.all_eq_true]
        intro r hr
        exact h1 r (h.mem_iff.mpr hr)
      rw [h2] at h3
      cases h3

/-- `average_availability` is determined by, for each window, whether every
record has the key and the mean of the window values. -/
theorem average_availability_congr (results results2 : List (Option Avail))
    (hk : ∀ d, hasKeyAll results d = hasKeyAll results2 d)
    (hm : ∀ d, listMean (windowValues results d) =
      listMean (windowValues results2 d)) :
    average_availability results = average_availability results2 := by
  cases hk1 : hasKeyAll results2 86400 <;>
  cases hk2 : hasKeyAll results2 604800 <;>
  cases hk3 : hasKeyAll results2 2592000 <;>
  cases hk4 : hasKeyAll results2 31536000 <;>
    simp [average_availability, collectWindow_eq, hk 86400, hk 604800,
      hk 2592000, hk 31536000, hk1, hk2, hk3, hk4, hm 86400, hm 604800,
      hm 2592000, hm 31536000]

/-- `average_availability` depends only on the multiset of records. -/
theorem average_availability_perm {results results2 : List (Option Avail)}
    (h : results.Perm results2) :
    average_availability results = average_availability results2 := by
  refine average_availability_congr results results2
    (fun d => hasKeyAll_perm d h) (fun d => listMean_perm ?_)
  exact h.filterMap _

/-- Dropping the `None` entries changes no window's key-completeness. -/
theorem hasKeyAll_filter (results : List (Option Avail)) (d : Nat) :
    hasKeyAll (results.filter (fun r => r.isSome)) d = hasKeyAll results d := by
  induction results with
  | nil => rfl
  | cons r rest ih =>
    cases r with
    | none =>
      show hasKeyAll (rest.filter (fun r => r.isSome)) d = hasKeyAll rest d
      exact ih
    | some a =>
      show ((pyDictGet a.samples d).isSome &&
          hasKeyAll (rest.filter (fun r => r.isSome)) d) =
        ((pyDictGet a.samples d).isSome && hasKeyAll rest d)
      rw [ih]

/-- Dropping the `None` entries changes no window's value list. -/
theorem windowValues_filter (results : List (Option Avail)) (d : Nat) :
    windowValues (results.filter (fun r => r.isSome)) d =
      windowValues results d := by
  induction results with
  | nil => rfl
  | cons r rest ih =>
    cases r with
    | none =>
      show windowValues (rest.filter (fun r => r.isSome)) d = windowValues rest d
      exact ih
    | some a =>
      cases hk : pyDictGet a.samples d with
      | none =>
        have h1 : windowValues ((some a :: rest).filter (fun r => r.isSome)) d =
            windowValues (rest.filter (fun r => r.isSome)) d := by
          simp [windowValues, List.filter_cons, List.filterMap_cons, hk]
        have h2 : windowValues (some a :: rest) d = windowValues rest d := by
          simp [windowValues, List.filterMap_cons, hk]
        rw [h1, h2, ih]
      | some v =>
        have h1 : windowValues ((some a :: rest).filter (fun r => r.isSome)) d =
            v :: windowValues (rest.filter (fun r => r.isSome)) d := by
          simp [windowValues, List.filter_cons, List.filterMap_cons, hk]
        have h2 : windowValues (some a :: rest) d = v :: windowValues rest d := by
          simp [windowValues, List.filterMap_cons, hk]
        rw [h1, h2, ih]

/-- A window's value list is non-empty as soon as some non-`None` record is
present and every non-`None` record contains the key. -/
theorem windowValues_ne_nil {results : List (Option Avail)} {d : Nat}
    (hk : hasKeyAll results d = true)
    (hne : ∃ r ∈ results, r.isSome = true) :
    windowValues results d ≠ [] := by
  obtain ⟨r, hr, hrs⟩ := hne
  cases r with
  | none => cases hrs
  | some a =>
    have h1 : (pyDictGet a.samples d).isSome = true := by
      have h2 := List.all_eq_true.mp hk _ hr
      simpa using h2
    obtain ⟨v, hv⟩ := Option.isSome_iff_exists.mp h1
    intro hnil
    have h3 : v ∈ windowValues results d :=
      List.mem_filterMap.mpr ⟨some a, hr, by simp [hv]⟩
    rw [hnil] at h3
    cases h3

/-- When every record has every standard key and some record is present,
`average_availability` returns the four window means. -/
theorem average_availability_ok {results : List (Option Avail)}
    (hk : ∀ d ∈ standardDurations, hasKeyAll results d = true)
    (hne : ∃ r ∈ results, r.isSome = true) :
    average_availability results =
      .ok ⟨(windowValues results 86400).sum / ((windowValues results 86400).length : Rat),
           (windowValues results 604800).sum / ((windowValues results 604800).length : Rat),
           (windowValues results 2592000).sum / ((windowValues results 2592000).length : Rat),
           (windowValues results 31536000).sum / ((windowValues results 31536000).length : Rat)⟩ := by
  have hk1 := hk 86400 (by simp [standardDurations])
  have hk2 := hk 604800 (by simp [standardDurations])
  have hk3 := hk 2592000 (by simp [standardDurations])
  have hk4 := hk 31536000 (by simp [standardDurations])
  have hm : ∀ d, hasKeyAll results d = true →
      listMean (windowValues results d) =
        .ok ((windowValues results d).sum / ((windowValues results d).length : Rat)) := by
    intro d hkd
    have hnn := windowValues_ne_nil hkd hne
    rw [listMean, if_neg (by simpa [List.length_eq_zero] using hnn)]
  simp [average_availability, collectWindow_eq, hk1, hk2, hk3, hk4,
    hm 86400 hk1, hm 604800 hk2, hm 2592000 hk3, hm 31536000 hk4]

/-- The sequential scheduler under failure-free fetches: every device is
consumed, every outcome (`None` included) is appended in order, and one
tick is issued per device. -/
theorem multi_proc_ok {env : Device → FetchResult} {devices : List Device}
    (hok : ∀ d ∈ devices, env d ≠ .failure) :
    ∀ acc t, multi_proc env devices acc t =
      .completed (acc ++ devices.map (fetchOutcome env)) (t + devices.length) := by
  induction devices with
  | nil => intro acc t; simp [multi_proc]
  | cons d ds ih =>
    intro acc t
    have hd : env d ≠ .failure := hok d (List.mem_cons_self d ds)
    cases henv : env d with
    | failure => exact absurd henv hd
    | ok resp =>
      have hih := ih (fun x hx => hok x (List.mem_cons_of_mem d hx))
      by_cases hle : resp.availability.length = 0 <;>
        simp [multi_proc, get_availability, henv, hle, fetchOutcome,
          hih, Nat.add_assoc, Nat.add_comm, Nat.add_left_comm]

/-- The gathered fetches under failure-free fetches: the outcomes appear in
device order, `None` entries included. -/
theorem fetchAll_ok {env : Device → FetchResult} {devices : List Device}
    (hok : ∀ d ∈ devices, env d ≠ .failure) :
    fetchAll env devices = .ok (devices.map (fetchOutcome env)) := by
  induction devices with
  | nil => rfl
  | cons d ds ih =>
    have hd : env d ≠ .failure := hok d (List.mem_cons_self d ds)
    cases henv : env d with
    | failure => exact absurd henv hd
    | ok resp =>
      have hih := ih (fun x hx => hok x (List.mem_cons_of_mem d hx))
      by_cases hle : resp.availability.length = 0 <;>
        simp [fetchAll, get_availability, henv, hle, fetchOutcome, hih]

/-- The sequential loop and the gathered fetches agree: when `gather`
succeeds the loop consumes every device and appends exactly the gathered
outcomes; when `gather` raises, the loop aborts. -/
theorem multi_proc_vs_fetchAll (env : Device → FetchResult) :
    ∀ (devices : List Device) (acc : List (Option Avail)) (t : Nat),
      (∀ rs, fetchAll env devices = .ok rs →
        multi_proc env devices acc t = .completed (acc ++ rs) (t + devices.length)) ∧
      (fetchAll env devices = .error () →
        ∃ acc2 t2, multi_proc env devices acc t = .aborted acc2 t2) := by
  intro devices
  induction devices with
  | nil =>
    intro acc t
    constructor
    · intro rs hrs
      cases hrs
      simp [multi_proc]
    · intro h
      cases h
  | cons d ds ih =>
    intro acc t
    cases hga : get_availability d (env d) with
    | error e =>
      constructor
      · intro rs hrs
        rw [fetchAll, hga] at hrs
        cases hrs
      · intro _
        exact ⟨acc, t, by rw [multi_proc, hga]⟩
    | ok p =>
      obtain ⟨r, w⟩ := p
      cases hfa : fetchAll env ds with
      | error e2 =>
        constructor
        · intro rs hrs
          rw [fetchAll, hga, hfa] at hrs
          cases hrs
        · intro _
          obtain ⟨acc2, t2, habort⟩ := (ih (acc ++ [r]) (t + 1)).2 (by cases e2; exact hfa)
          refine ⟨acc2, t2, ?_⟩
          rw [multi_proc, hga]
          exact habort
      | ok rs2 =>
        constructor
        · intro rs hrs
          rw [fetchAll, hga, hfa] at hrs
          cases hrs
          have hcomp := (ih (acc ++ [r]) (t + 1)).1 rs2 hfa
          rw [multi_proc, hga]
          refine hcomp.trans ?_
          simp [List.append_assoc]
          omega
        · intro h
          rw [fetchAll, hga, hfa] at h
          cases h

/-- The global-state scheduler under failure-free fetches with the global
list defined: every outcome is appended, one tick per device. -/
theorem multi_proc_global_ok {env : Device → FetchResult} {devices : List Device}
    (hok : ∀ d ∈ devices, env d ≠ .failure) :
    ∀ l t, multi_proc_global env devices ⟨some l⟩ t =
      .returned ⟨some (l ++ devices.map (fetchOutcome env))⟩ (t + devices.length) := by
  induction devices with
  | nil => intro l t; simp [multi_proc_global]
  | cons d ds ih =>
    intro l t
    have hd : env d ≠ .failure := hok d (List.mem_cons_self d ds)
    cases henv : env d with
    | failure => exact absurd henv hd
    | ok resp =>
      have hih := ih (fun x hx => hok x (List.mem_cons_of_mem d hx))
      by_cases hle : resp.availability.length = 0 <;>
        simp [multi_proc_global, get_availability, henv, hle, fetchOutcome,
          hih, Nat.add_assoc, Nat.add_comm, Nat.add_left_comm]

/-- `99999 / 1000` is not a dyadic rational. -/
theorem sample_not_dyadic : ¬ dyadicRepresentable samplePercValue := by
  rintro ⟨m, k, h⟩
  rw [samplePercValue, div_eq_div_iff (by norm_num) (by positivity)] at h
  have hz : (99999 : Int) * 2 ^ k = m * 1000 := by exact_mod_cast h
  have h5 : (5 : Int) ∣ 99999 * 2 ^ k := ⟨m * 200, by rw [hz]; ring⟩
  have hp : Prime (5 : Int) := by norm_num
  rcases hp.dvd_mul.mp h5 with h9 | hk2
  · omega
  · have h52 : (5 : Int) ∣ 2 := hp.dvd_of_dvd_pow hk2
    omega

/-! Claims. -/

/-- C1 counterexample: with device "A" failing at transport level and
device "B" healthy, the sequential scheduler aborts before consuming "B"
and the run dies without producing a report — one device's failure aborts
the batch. -/
theorem multi_proc_failure_aborts_cex :
    multi_proc envFailA [dA, dB] [] 0 = .aborted [] 0 ∧
    main_seq (.ok [dA, dB]) envFailA = .fetchCrash := by
  exact ⟨rfl, rfl⟩

/-- C1 (amended): only when no device suffers a transport/parse failure
does the scheduler consume the whole device set; in that case every device
(absent ones included) is consumed and the run proceeds to aggregate the
collected records. A transport/parse failure on any device aborts the
batch (see the counterexample). -/
theorem multi_proc_failure_isolation_amended (env : Device → FetchResult)
    (devices : List Device) (hok : ∀ d ∈ devices, env d ≠ .failure) :
    multi_proc env devices [] 0 =
      .completed (devices.map (fetchOutcome env)) devices.length ∧
    main_seq (.ok devices) env = aggOutcome (devices.map (fetchOutcome env)) := by
  have h1 := multi_proc_ok hok [] 0
  rw [List.nil_append, Nat.zero_add] at h1
  refine ⟨h1, ?_⟩
  rw [main_seq, h1]

/-- Witness for C1: one absent device, no failures. -/
theorem multi_proc_failure_isolation_amended_witness :
    (∀ d ∈ [dA], envAbsent d ≠ FetchResult.failure) ∧
    (multi_proc envAbsent [dA] [] 0 =
      .completed ([dA].map (fetchOutcome envAbsent)) [dA].length ∧
    main_seq (.ok [dA]) envAbsent =
      aggOutcome ([dA].map (fetchOutcome envAbsent))) :=
  ⟨by decide, multi_proc_failure_isolation_amended envAbsent [dA] (by decide)⟩

/-- C2 counterexample: with no records at all, zero records contain the day
key, and `average_availability` raises `ZeroDivisionError` instead of
returning a missing-value result; with a record lacking the week key it
raises `KeyError` instead of producing the other windows. -/
theorem average_availability_zero_division_cex :
    average_availability [] = .error .zeroDivision ∧
    average_availability [some ⟨"A", [(86400, 100)]⟩] =
      .error (.keyError 604800) := by
  exact ⟨rfl, rfl⟩

/-- C2 (amended): when zero records contain the day duration key the
aggregation raises — `KeyError` on the day window if some non-`None`
record exists, otherwise `ZeroDivisionError` — and no window average is
produced at all. -/
theorem average_availability_empty_window_amended
    (results : List (Option Avail))
    (h : windowValues results 86400 = []) :
    average_availability results = .error (.keyError 86400) ∨
    average_availability results = .error .zeroDivision := by
  by_cases hs : ∃ r ∈ results, r.isSome = true
  · left
    obtain ⟨r, hr, hrs⟩ := hs
    cases r with
    | none => cases hrs
    | some a =>
      have hnone := (List.filterMap_eq_nil_iff.mp h) _ hr
      have hlk : pyDictGet a.samples 86400 = none := by simpa using hnone
      have hfalse : hasKeyAll results 86400 = false := by
        cases hka : hasKeyAll results 86400 with
        | false => rfl
        | true =>
          have h2 := List.all_eq_true.mp hka _ hr
          simp [hlk] at h2
      simp [average_availability, collectWindow_eq, hfalse]
  · right
    have hall : ∀ r ∈ results, r = none := by
      intro r hr
      cases r with
      | none => rfl
      | some a => exact absurd ⟨some a, hr, rfl⟩ hs
    have hk : ∀ d, hasKeyAll results d = true := by
      intro d
      rw [hasKeyAll, List.all_eq_true]
      intro r hr
      rw [hall r hr]
    have hwv : ∀ d, windowValues results d = [] := by
      intro d
      rw [windowValues, List.filterMap_eq_nil_iff]
      intro r hr
      rw [hall r hr]
      rfl
    simp [average_availability, collectWindow_eq, hk, hwv, listMean]

/-- Witness for C2: the empty record list. -/
theorem average_availability_empty_window_amended_witness :
    windowValues [] 86400 = [] ∧
    (average_availability [] = .error (.keyError 86400) ∨
     average_availability [] = .error .zeroDivision) :=
  ⟨rfl, average_availability_empty_window_amended [] rfl⟩

/-- C3 counterexample: one device whose fetch returns the absent outcome.
The async scheduler consumes the device but issues zero progress ticks,
so ticks differ from the device count. -/
theorem multi_async_progress_ticks_cex :
    multi_async envAbsent [dA] = .ok ([none], 0) ∧
    (0 : Nat) ≠ [dA].length := by
  exact ⟨rfl, by decide⟩

/-- C3 (amended): under failure-free fetches the sequential scheduler
ticks once per device (absent devices included), so its tick count equals
the device count; the async scheduler instead ticks only once per
non-`None` result, so absent devices produce no tick. -/
theorem progress_ticks_amended (env : Device → FetchResult)
    (devices : List Device) (hok : ∀ d ∈ devices, env d ≠ .failure) :
    multi_proc env devices [] 0 =
      .completed (devices.map (fetchOutcome env)) devices.length ∧
    multi_async env devices =
      .ok (devices.map (fetchOutcome env),
        ((devices.map (fetchOutcome env)).filter (fun r => r.isSome)).length) := by
  have h1 := multi_proc_ok hok [] 0
  rw [List.nil_append, Nat.zero_add] at h1
  refine ⟨h1, ?_⟩
  rw [multi_async, fetchAll_ok hok]

/-- Witness for C3: one absent device. -/
theorem progress_ticks_amended_witness :
    (∀ d ∈ [dA], envAbsent d ≠ FetchResult.failure) ∧
    (multi_proc envAbsent [dA] [] 0 =
      .completed ([dA].map (fetchOutcome envAbsent)) [dA].length ∧
    multi_async envAbsent [dA] =
      .ok ([dA].map (fetchOutcome envAbsent),
        (([dA].map (fetchOutcome envAbsent)).filter (fun r => r.isSome)).length)) :=
  ⟨by decide, progress_ticks_amended envAbsent [dA] (by decide)⟩

/-- C4 counterexample: an absent device's `None` is appended to the
scheduler's output, so the sequence handed to the aggregator is not free
of absent entries. -/
theorem multi_proc_output_contains_none_cex :
    multi_proc envAbsent [dA] [] 0 = .completed [none] 1 := by
  exact rfl

/-- C4 (amended): the scheduler's output keeps the `None` entries of
absent devices; it is the aggregator that filters them (each window
comprehension skips `None`), so aggregation is unchanged by removing
them. -/
theorem aggregator_filters_none_amended (results : List (Option Avail)) :
    average_availability results =
      average_availability (results.filter (fun r => r.isSome)) := by
  refine average_availability_congr results _ (fun d => ?_) (fun d => ?_)
  · rw [hasKeyAll_filter]
  · rw [windowValues_filter]

/-- C5 counterexample: a record lacking the day key is not skipped — it
raises `KeyError` and kills the whole aggregation, producing no mean for
any window. -/
theorem average_availability_missing_key_cex :
    average_availability [some recA, some recWeekOnly] =
      .error (.keyError 86400) := by
  exact rfl

/-- C5 (amended): when every record contains every standard duration key
(and at least one record is present), the aggregator's output for each
window D is the sum of the values of the records containing D divided by
their count, and the value is invariant under permutation of the records;
a record lacking key D instead raises `KeyError` (see the
counterexample), it is not skipped. -/
theorem average_availability_mean_perm_amended
    (results results2 : List (Option Avail))
    (hperm : results.Perm results2)
    (hkeys : ∀ d ∈ standardDurations, hasKeyAll results d = true)
    (hsome : ∃ r ∈ results, r.isSome = true) :
    ∃ rep, average_availability results = .ok rep ∧
      average_availability results2 = .ok rep ∧
      rep.day = (windowValues results 86400).sum /
        ((windowValues results 86400).length : Rat) ∧
      rep.week = (windowValues results 604800).sum /
        ((windowValues results 604800).length : Rat) ∧
      rep.month = (windowValues results 2592000).sum /
        ((windowValues results 2592000).length : Rat) ∧
      rep.year = (windowValues results 31536000).sum /
        ((windowValues results 31536000).length : Rat) := by
  refine ⟨_, average_availability_ok hkeys hsome, ?_, rfl, rfl, rfl, rfl⟩
  rw [← average_availability_perm hperm, average_availability_ok hkeys hsome]

/-- Witness for C5: two full records, swapped. -/
theorem average_availability_mean_perm_amended_witness :
    ([some recA, some recB] : List (Option Avail)).Perm [some recB, some recA] ∧
    (∀ d ∈ standardDurations, hasKeyAll [some recA, some recB] d = true) ∧
    (∃ r ∈ ([some recA, some recB] : List (Option Avail)), r.isSome = true) ∧
    (∃ rep, average_availability [some recA, some recB] = .ok rep ∧
      average_availability [some recB, some recA] = .ok rep ∧
      rep.day = (windowValues [some recA, some recB] 86400).sum /
        ((windowValues [some recA, some recB] 86400).length : Rat) ∧
      rep.week = (windowValues [some recA, some recB] 604800).sum /
        ((windowValues [some recA, some recB] 604800).length : Rat) ∧
      rep.month = (windowValues [some recA, some recB] 2592000).sum /
        ((windowValues [some recA, some recB] 2592000).length : Rat) ∧
      rep.year = (windowValues [some recA, some recB] 31536000).sum /
        ((windowValues [some recA, some recB] 31536000).length : Rat)) :=
  ⟨List.Perm.swap (some recB) (some recA) [], by decide, by decide,
    average_availability_mean_perm_amended [some recA, some recB]
      [some recB, some recA] (List.Perm.swap (some recB) (some recA) [])
      (by decide) (by decide)⟩

/-- C6 counterexample: with an inventory of zero devices the run does not
terminate with a run-level error before collection; it proceeds and dies
inside the aggregation with a `ZeroDivisionError`. -/
theorem zero_devices_aggregation_attempted_cex :
    main_seq (.ok []) envAbsent = .aggCrash .zeroDivision ∧
    main_async (.ok []) envAbsent = .aggCrash .zeroDivision ∧
    MainResult.aggCrash .zeroDivision ≠ .inventoryCrash := by
  exact ⟨rfl, rfl, by decide⟩

/-- C6 (amended): an inventory query failure does kill the run before any
collection, but a successful query returning zero devices does not — the
run dispatches no fetches (the set is empty) yet still attempts the
aggregation, which crashes with `ZeroDivisionError`. -/
theorem inventory_failure_amended (env : Device → FetchResult) :
    main_seq (.error ()) env = .inventoryCrash ∧
    main_async (.error ()) env = .inventoryCrash ∧
    main_seq (.ok []) env = .aggCrash .zeroDivision ∧
    main_async (.ok []) env = .aggCrash .zeroDivision := by
  exact ⟨rfl, rfl, rfl, rfl⟩

/-- C7 (confirmed): for the same inventory outcome and the same fixed
per-device responses, the sequential pipeline and the cooperative-async
pipeline produce the same end result — in particular the same
`AggregateReport` whenever one is produced. -/
theorem main_seq_eq_main_async (inventory : Except Unit (List Device))
    (env : Device → FetchResult) :
    main_seq inventory env = main_async inventory env := by
  cases inventory with
  | error e => rfl
  | ok devices =>
    cases hfa : fetchAll env devices with
    | error e2 =>
      obtain ⟨acc2, t2, habort⟩ :=
        (multi_proc_vs_fetchAll env devices [] 0).2 (by cases e2; exact hfa)
      simp [main_seq, main_async, multi_async, habort, hfa]
    | ok rs =>
      have hcomp := (multi_proc_vs_fetchAll env devices [] 0).1 rs hfa
      simp [main_seq, main_async, multi_async, hcomp, hfa]

/-- C8 (confirmed): on a well-formed response, `get_availability` never
raises; with an empty availability list it returns the absent outcome and
a warning naming the device; otherwise it returns exactly one availability
record whose samples key each response entry by its duration value. -/
theorem get_availability_cases (device : Device) (resp : ApiResponse) :
    get_availability device (.ok resp) ≠ .error () ∧
    (resp.availability = [] →
      get_availability device (.ok resp) = .ok (none, [warnMsg device])) ∧
    (resp.availability ≠ [] →
      get_availability device (.ok resp) =
        .ok (some { name := device.name,
                    samples := resp.availability.map
                      (fun a => (a.duration, a.availability_perc)) }, [])) := by
  refine ⟨?_, ?_, ?_⟩
  · by_cases h : resp.availability.length = 0 <;> simp [get_availability, h]
  · intro h
    simp [get_availability, h]
  · intro h
    rw [get_availability, if_neg (by simpa [List.length_eq_zero] using h)]

/-- Witness for C8: an empty and a full response. -/
theorem get_availability_cases_witness :
    get_availability dA (.ok ⟨[]⟩) = .ok (none, [warnMsg dA]) ∧
    get_availability dA (.ok (respFull 100)) =
      .ok (some { name := dA.name,
                  samples := (respFull 100).availability.map
                    (fun a => (a.duration, a.availability_perc)) }, []) :=
  ⟨(get_availability_cases dA ⟨[]⟩).2.1 rfl,
   (get_availability_cases dA (respFull 100)).2.2 (by decide)⟩

/-- C9 counterexample: the exact decimal value of "99.999000" is not a
dyadic rational, so no IEEE-754 binary64 value — the result of the
scripts' string-to-`float` conversion — can equal it: the conversion of a
6-significant-digit percentage does lose precision. -/
theorem float_precision_cex : ¬ dyadicRepresentable samplePercValue :=
  sample_not_dyadic

/-- C9 (amended): the percentage reaches the record as the exact decimal
only in the idealisation; the `float` conversion can be exact only for
dyadic values — it is for "100.000000" (value 100), but cannot be for
"99.999000" (value 99999/1000), so the aggregator computes over binary64
approximations rather than exact decimals in general. -/
theorem float_precision_amended :
    dyadicRepresentable 100 ∧
    ¬ dyadicRepresentable samplePercValue ∧
    get_availability dA (.ok ⟨[⟨31536000, samplePercValue⟩]⟩) =
      .ok (some ⟨dA.name, [(31536000, samplePercValue)]⟩, []) :=
  ⟨⟨100, 0, by norm_num⟩, sample_not_dyadic, rfl⟩

/-- C10 counterexample: with the global `results` name undefined but an
empty device list, `multi_proc` returns normally — it does not raise
`NameError`, because the loop body never executes. -/
theorem multi_proc_global_empty_no_error_cex :
    multi_proc_global envAbsent [] ⟨none⟩ 0 = .returned ⟨none⟩ 0 ∧
    ProcOutcome.returned ⟨none⟩ 0 ≠ .nameError ⟨none⟩ 0 := by
  exact ⟨rfl, by decide⟩

/-- C10 (amended): `multi_proc` returns `None` and delivers results only
through the module-level `results` list: when that global is bound, every
fetch outcome (including `None`) is appended in order and one tick is
issued per device; when it is unbound, a non-empty device list whose first
fetch completes raises `NameError` at the first append (before any tick);
an empty device list returns without referencing the global at all. -/
theorem multi_proc_global_amended (env : Device → FetchResult)
    (d : Device) (ds : List Device) (l : List (Option Avail))
    (hok : ∀ x ∈ d :: ds, env x ≠ .failure) :
    multi_proc_global env (d :: ds) ⟨some l⟩ 0 =
      .returned ⟨some (l ++ (d :: ds).map (fetchOutcome env))⟩ (d :: ds).length ∧
    multi_proc_global env (d :: ds) ⟨none⟩ 0 = .nameError ⟨none⟩ 0 ∧
    multi_proc_global env [] ⟨none⟩ 0 = .returned ⟨none⟩ 0 := by
  refine ⟨?_, ?_, rfl⟩
  · have h1 := multi_proc_global_ok hok l 0
    rw [Nat.zero_add] at h1
    exact h1
  · have hd : env d ≠ .failure := hok d (List.mem_cons_self d ds)
    cases henv : env d with
    | failure => exact absurd henv hd
    | ok resp =>
      by_cases hle : resp.availability.length = 0 <;>
        simp [multi_proc_global, get_availability, henv, hle]

/-- Witness for C10: one absent device, global list initially empty. -/
theorem multi_proc_global_amended_witness :
    (∀ x ∈ [dA], envAbsent x ≠ FetchResult.failure) ∧
    (multi_proc_global envAbsent [dA] ⟨some []⟩ 0 =
      .returned ⟨some ([] ++ [dA].map (fetchOutcome envAbsent))⟩ [dA].length ∧
    multi_proc_global envAbsent [dA] ⟨none⟩ 0 = .nameError ⟨none⟩ 0 ∧
    multi_proc_global envAbsent [] ⟨none⟩ 0 = .returned ⟨none⟩ 0) :=
  ⟨by decide, multi_proc_global_amended envAbsent dA [] [] (by decide)⟩

end SwitchAvailability
